import Mathlib

/-!
Verification development for the displacement-field video-transition engine
(`video_warp_transition.py`, class `VideoWarpTransitionNode`).

Frames are modelled with exact rational pixel values; machine floats of the
source are modelled by exact arithmetic over `ℚ` (and over `ℝ` where the
source uses `sin`/`cos`/`sqrt`/`π`).  Python's `int(...)` truncation toward
zero is modelled by `pyInt`, Python's `//` on non-negative operands by `Nat`
division, and `numpy`/OpenCV rounding and saturation are modelled explicitly
where they occur.
-/

set_option autoImplicit false

namespace VideoWarp

/-- Python `int(q)` for a rational `q`: truncation toward zero.
`Int.tdiv` is T-division (rounds toward zero), matching CPython. -/
def pyInt (q : ℚ) : ℤ := Int.tdiv q.num q.den

/-- `np.clip(v, lo, hi)` on rationals (`lo ≤ hi` in every use below). -/
def clipQ (v lo hi : ℚ) : ℚ := min (max v lo) hi

/-- The smoothstep easing `3t² − 2t³` defined inside `_calculate_blend_weights`. -/
def smoothstep (t : ℚ) : ℚ := 3 * t * t - 2 * t * t * t

/-- `_calculate_blend_weights(progress)`: clamp progress to `[0,1]`, apply
smoothstep to the second weight, derive the first as its complement, clamp
both to `[0,1]` and renormalize when the total is positive. -/
def calculate_blend_weights (progress : ℚ) : ℚ × ℚ :=
  let p := max 0 (min progress 1)
  let alpha2 := smoothstep p
  let alpha1 := 1 - alpha2
  let alpha1 := max 0 (min alpha1 1)
  let alpha2 := max 0 (min alpha2 1)
  let total := alpha1 + alpha2
  if 0 < total then (alpha1 / total, alpha2 / total) else (alpha1, alpha2)

/-- Source-frame selection of `_process_batch_opencv` for one clip of length
`L`: `frames[0]` when `L = 1`, otherwise index
`min(int(progress * (L - 1)), L - 1)` (Python `int` truncates toward zero). -/
def frame_idx (progress : ℚ) (L : ℕ) : ℤ :=
  if L = 1 then 0
  else min (pyInt (progress * ((L : ℚ) - 1))) ((L : ℤ) - 1)

/-- Modelled from the spec (§4.1), as a comparison definition: the Timeline
Mapper the spec describes, `index = clamp(round(progress·(L−1)), 0, L−1)`,
with `0` when `L = 1`. -/
def timeline_mapper_spec (progress : ℚ) (L : ℕ) : ℤ :=
  if L = 1 then 0
  else min (max (round (progress * ((L : ℚ) - 1))) 0) ((L : ℤ) - 1)

/-- Per-frame progress of `_process_batch_opencv`:
`i / (total_frames - 1) if total_frames > 1 else 0`. -/
def progress_at (i total : ℕ) : ℚ :=
  if 1 < total then (i : ℚ) / ((total : ℚ) - 1) else 0

/-- Number of batches produced by `range(0, total_frames, batch_size)`. -/
def num_batches (total bs : ℕ) : ℕ := (total + bs - 1) / bs

/-- The `k`-th batch of frame indices: `range(batch_start, batch_end)` with
`batch_start = k·bs` and `batch_end = min(batch_start + bs, total)`. -/
def batch_at (total bs k : ℕ) : List ℕ :=
  List.range' (k * bs) (min ((k + 1) * bs) total - k * bs)

/-- All frame indices emitted by the batch loop of
`generate_warp_transition`, in emission order. -/
def output_indices (total bs : ℕ) : List ℕ :=
  (List.range (num_batches total bs)).flatMap (batch_at total bs)

/-- The output frame sequence of the batch loop, given the per-index frame
renderer (the body of `_process_batch_opencv`). -/
def output_frames {α : Type} (render : ℕ → α) (total bs : ℕ) : List α :=
  (List.range (num_batches total bs)).flatMap
    (fun k => (batch_at total bs k).map render)

/-- The per-pixel transparency step ending `_apply_warp_effect`:
`if alpha < 1.0: warped = (warped * alpha).astype(np.uint8)`.  The `uint8`
cast truncates toward zero (all uses keep the product inside `[0, 255)`). -/
def apply_alpha (alpha v : ℚ) : ℚ :=
  if alpha < 1 then ((pyInt (v * alpha) : ℤ) : ℚ) else v

/-- One pixel of `cv2.addWeighted(f1, a1, f2, a2, 0)` on `uint8` frames:
round to nearest and saturate into `[0, 255]`. -/
def add_weighted (v1 a1 v2 a2 : ℚ) : ℤ :=
  max 0 (min (round (v1 * a1 + v2 * a2)) 255)

/-- One composited output pixel of `_process_batch_opencv`: the first warped
frame is produced with `alpha = 1 - progress`, the second with
`alpha = progress` (both attenuated inside `_apply_warp_effect`), then the
two are blended with the `_calculate_blend_weights` pair. -/
def composite_pixel (progress v1 v2 : ℚ) : ℤ :=
  let w := calculate_blend_weights progress
  add_weighted (apply_alpha (1 - progress) v1) w.1 (apply_alpha progress v2) w.2

/-- Modelled from the spec (§4.5), as a comparison definition: the Blend
Compositor output `w1·frame1 + w2·frame2` pointwise, with the weights of
`_calculate_blend_weights` and no other per-frame attenuation. -/
def blend_compositor_spec (progress v1 v2 : ℚ) : ℤ :=
  let w := calculate_blend_weights progress
  max 0 (min (round (w.1 * v1 + w.2 * v2)) 255)

/-- A crop window `image[y : y + ch, x : x + cw]`. -/
structure CropRect where
  y : ℕ
  x : ℕ
  ch : ℕ
  cw : ℕ

/-- The clamped zoom factor of `_apply_scale_recovery`:
`max(0.8, min(max_scale - progress*(max_scale - 1.0), max_scale))`. -/
def scale_recovery_scale (progress max_scale : ℚ) : ℚ :=
  max (4/5) (min (max_scale - progress * (max_scale - 1)) max_scale)

/-- The centered crop window computed by `_apply_scale_recovery` on a frame
of height `h`, width `w`; `none` when the `|scale - 1.0| < 0.01` early return
skips cropping.  Python's `max(0, ...)` clamp on the start positions is
vacuous over `ℕ` and `int(...)` truncation is `pyInt`. -/
def scale_recovery_crop (h w : ℕ) (progress max_scale : ℚ) : Option CropRect :=
  let scale := scale_recovery_scale progress max_scale
  if |scale - 1| < 1/100 then none
  else
    let crop_scale := 1 / scale
    let crop_w := min (pyInt ((w : ℚ) * crop_scale)).toNat w
    let crop_h := min (pyInt ((h : ℚ) * crop_scale)).toNat h
    let start_x := min ((w - crop_w) / 2) (w - crop_w)
    let start_y := min ((h - crop_h) / 2) (h - crop_h)
    some ⟨start_y, start_x, crop_h, crop_w⟩

/-- Frame-level outcome of `_apply_scale_recovery`: `some` of the output
dimensions, or `none` when the function raises.  The early return hands back
the input frame unchanged; the crop branch ends with
`cv2.resize(cropped, (w, h))`, which returns an `h × w` frame when the crop
is non-empty but raises an OpenCV assertion error (`!ssize.empty()`) when
`crop_w` or `crop_h` is zero. -/
def apply_scale_recovery_dims (h w : ℕ) (progress max_scale : ℚ) :
    Option (ℕ × ℕ) :=
  match scale_recovery_crop h w progress max_scale with
  | none => some (h, w)
  | some r => if r.cw = 0 ∨ r.ch = 0 then none else some (h, w)

/-- A frame: `h × w` canvas with rational pixel samples (one channel shown;
all three channels are processed identically and independently). -/
structure Img where
  h : ℕ
  w : ℕ
  px : ℕ → ℕ → ℚ

/-- `cv2.BORDER_REFLECT` index folding (edge pixel repeated:
`…cba|abcde|edc…`), total on `ℤ` with period `2n`. -/
def reflect_idx (i : ℤ) (n : ℕ) : ℕ :=
  if n = 0 then 0
  else
    let j := (i % (2 * (n : ℤ))).toNat
    if j < n then j else 2 * n - 1 - j

/-- OpenCV's `INTER_CUBIC` interpolation kernel (Keys kernel with
`A = -0.75`). -/
def cubic_w (t : ℚ) : ℚ :=
  let A : ℚ := -3/4
  let s := |t|
  if s ≤ 1 then ((A + 2) * s - (A + 3)) * s * s + 1
  else if s < 2 then A * (((s - 5) * s + 8) * s - 4)
  else 0

/-- Bicubic sampling of a frame at a fractional coordinate `(xf, yf)`:
4×4 tap neighbourhood around `(⌊xf⌋, ⌊yf⌋)`, reflect-border indexing. -/
def bicubic_sample (img : Img) (xf yf : ℚ) : ℚ :=
  let xi := ⌊xf⌋
  let yi := ⌊yf⌋
  let fx := xf - (xi : ℚ)
  let fy := yf - (yi : ℚ)
  ∑ j ∈ Finset.range 4, ∑ k ∈ Finset.range 4,
    cubic_w (fy - ((j : ℚ) - 1)) * cubic_w (fx - ((k : ℚ) - 1)) *
      img.px (reflect_idx (yi + (j : ℤ) - 1) img.h)
             (reflect_idx (xi + (k : ℤ) - 1) img.w)

/-- `cv2.remap(image, x_new, y_new, cv2.INTER_CUBIC, BORDER_REFLECT)` as used
in `_apply_warp_effect`: the sampling maps are `x + x_offset` and
`y + y_offset`, clipped into `[0, dim − 1]` with `np.clip` before remapping. -/
def apply_warp_remap (img : Img) (dx dy : ℕ → ℕ → ℚ) : Img :=
  ⟨img.h, img.w, fun y x =>
    bicubic_sample img (clipQ ((x : ℚ) + dx y x) 0 ((img.w : ℚ) - 1))
                       (clipQ ((y : ℚ) + dy y x) 0 ((img.h : ℚ) - 1))⟩

/-- Value of an ASCII hexadecimal digit (`0-9`, `a-f`, `A-F`). -/
def hex_digit_val (c : Char) : Option ℕ :=
  if 48 ≤ c.toNat ∧ c.toNat ≤ 57 then some (c.toNat - 48)
  else if 97 ≤ c.toNat ∧ c.toNat ≤ 102 then some (c.toNat - 97 + 10)
  else if 65 ≤ c.toNat ∧ c.toNat ≤ 70 then some (c.toNat - 65 + 10)
  else none

/-- ASCII whitespace stripped by Python `int(·, 16)`. -/
def is_py_space (c : Char) : Bool :=
  c.toNat == 32 || c.toNat == 9 || c.toNat == 10 ||
  c.toNat == 13 || c.toNat == 11 || c.toNat == 12

/-- Python `int(s, 16)` restricted to the two-character slices the parser
feeds it: two hex digits, or one hex digit next to whitespace, or a sign
(`+`/`-`) followed by one hex digit; anything else raises `ValueError`
(`none`).  A single underscore is only legal between two digits, so it never
occurs in a valid two-character argument. -/
def py_int_hex2 (c1 c2 : Char) : Option ℤ :=
  match hex_digit_val c1, hex_digit_val c2 with
  | some v1, some v2 => some ((16 * v1 + v2 : ℕ) : ℤ)
  | some v1, none => if is_py_space c2 then some ((v1 : ℕ) : ℤ) else none
  | none, some v2 =>
      if c1 = '+' then some ((v2 : ℕ) : ℤ)
      else if c1 = '-' then some (-((v2 : ℕ) : ℤ))
      else if is_py_space c1 then some ((v2 : ℕ) : ℤ) else none
  | none, none => none

/-- `if color_str.startswith('#'): color_str = color_str[1:]`. -/
def strip_hash (l : List Char) : List Char :=
  match l with
  | '#' :: t => t
  | _ => l

/-- Body of `_parse_background_color` after the `#`-strip: decode a 6- or
3-character string into `(b, g, r)`; any other length, or any slice
`int(·, 16)` rejects, yields black (the bare `except` clause). -/
def parse_bg_core (l : List Char) : ℤ × ℤ × ℤ :=
  match l with
  | [c1, c2, c3, c4, c5, c6] =>
    match py_int_hex2 c1 c2, py_int_hex2 c3 c4, py_int_hex2 c5 c6 with
    | some r, some g, some b => (b, g, r)
    | _, _, _ => (0, 0, 0)
  | [c1, c2, c3] =>
    match py_int_hex2 c1 c1, py_int_hex2 c2 c2, py_int_hex2 c3 c3 with
    | some r, some g, some b => (b, g, r)
    | _, _, _ => (0, 0, 0)
  | _ => (0, 0, 0)

/-- `_parse_background_color(color_str)`. -/
def parse_background_color (s : String) : ℤ × ℤ × ℤ :=
  parse_bg_core (strip_hash s.data)

/-- All three BGR components lie in `[-15, 255]`. -/
def color_in_range (t : ℤ × ℤ × ℤ) : Prop :=
  -15 ≤ t.1 ∧ t.1 ≤ 255 ∧ -15 ≤ t.2.1 ∧ t.2.1 ≤ 255 ∧
  -15 ≤ t.2.2 ∧ t.2.2 ≤ 255

/-- The rotation angle computed inside `_calculate_swirl_displacement` for
the pixel at `(x, y)`: distance-proportional, smoothstep-attenuated, signed
and ramped by the clip role. -/
noncomputable def swirl_twist_angle (x y w h intensity progress : ℝ)
    (is_first : Bool) : ℝ :=
  let center_x := w / 2
  let center_y := h / 2
  let max_radius := Real.sqrt (center_x ^ 2 + center_y ^ 2)
  let swirl_intensity := intensity * 2
  let dx := x - center_x
  let dy := y - center_y
  let distance := Real.sqrt (dx ^ 2 + dy ^ 2)
  let influence0 :=
    if 0 < distance then min (max (1 - distance / max_radius) 0) 1 else 0
  let influence := influence0 * influence0 * (3 - 2 * influence0)
  let rotation_factor := if is_first then progress else 1 - progress
  let rotation_direction : ℝ := if is_first then 1 else -1
  distance / max_radius * swirl_intensity * Real.pi * influence *
    rotation_factor * rotation_direction

/-- `_calculate_swirl_displacement`: rotate the pixel about the canvas
center by the twist angle and return the offsets. -/
noncomputable def calculate_swirl_displacement
    (x y w h intensity time_factor progress : ℝ) (is_first : Bool) : ℝ × ℝ :=
  let center_x := w / 2
  let center_y := h / 2
  let dx := x - center_x
  let dy := y - center_y
  let twist_angle := swirl_twist_angle x y w h intensity progress is_first
  let x_new := center_x + dx * Real.cos twist_angle - dy * Real.sin twist_angle
  let y_new := center_y + dx * Real.sin twist_angle + dy * Real.cos twist_angle
  (x_new - x, y_new - y)

/-- `_calculate_squeeze_displacement`. -/
noncomputable def calculate_squeeze_displacement
    (x y w h intensity time_factor progress : ℝ) (direction : String)
    (is_first : Bool) : ℝ × ℝ :=
  let squeeze_intensity :=
    if is_first then intensity * progress * 58
    else intensity * (1 - progress) * 58
  if direction = "horizontal" then
    let center_x := w / 2
    (Real.sin ((x - center_x) / w * Real.pi * 3) * squeeze_intensity, 0)
  else
    let center_y := h / 2
    (0, Real.sin ((y - center_y) / h * Real.pi * 3) * squeeze_intensity)

/-- `_calculate_liquid_displacement`. -/
noncomputable def calculate_liquid_displacement
    (x y w h intensity time_factor progress : ℝ) (is_first : Bool) : ℝ × ℝ :=
  let liquid_intensity :=
    if is_first then intensity * progress * 30
    else intensity * (1 - progress) * 30
  let wave1 := Real.sin (x * 0.02 + time_factor) * liquid_intensity
  let wave2 := Real.cos (y * 0.02 + time_factor * 0.7) * liquid_intensity * 0.8
  let wave3 := Real.sin (x * 0.03 + time_factor * 1.3) * liquid_intensity * 0.4
  let wave4 := Real.cos (y * 0.03 + time_factor * 0.5) * liquid_intensity * 0.3
  (wave1 + wave3, wave2 + wave4)

/-- `_calculate_wave_displacement`. -/
noncomputable def calculate_wave_displacement
    (x y w h intensity time_factor progress : ℝ) (is_first : Bool) : ℝ × ℝ :=
  let wave_intensity :=
    if is_first then intensity * progress * 40
    else intensity * (1 - progress) * 40
  let wave1 := Real.sin (x * 0.03 + time_factor) * wave_intensity
  let wave2 := Real.sin (x * 0.05 + time_factor * 1.5) * wave_intensity * 0.6
  let wave3 := Real.sin (y * 0.02 + time_factor * 0.8) * wave_intensity * 0.4
  (wave3, wave1 + wave2)

/-- The style dispatch of `_apply_warp_effect` (the per-pixel displacement it
feeds to `cv2.remap`): five recognized styles, and for any other string the
`else` branch silently yields the all-zero field
(`np.zeros_like(x), np.zeros_like(y)`) — no error is raised. -/
noncomputable def warp_displacement (warp_type : String)
    (x y w h intensity speed progress : ℝ) (is_first : Bool) : ℝ × ℝ :=
  let time_factor := progress * speed * Real.pi * 2
  if warp_type = "swirl" then
    calculate_swirl_displacement x y w h intensity time_factor progress is_first
  else if warp_type = "squeeze_h" then
    calculate_squeeze_displacement x y w h intensity time_factor progress
      "horizontal" is_first
  else if warp_type = "squeeze_v" then
    calculate_squeeze_displacement x y w h intensity time_factor progress
      "vertical" is_first
  else if warp_type = "liquid" then
    calculate_liquid_displacement x y w h intensity time_factor progress is_first
  else if warp_type = "wave" then
    calculate_wave_displacement x y w h intensity time_factor progress is_first
  else (0, 0)

end VideoWarp

namespace VideoWarp

theorem pyInt_zero : pyInt 0 = 0 := rfl

/-- Truncation toward zero agrees with the floor on non-negative rationals. -/
theorem pyInt_eq_floor {q : ℚ} (hq : 0 ≤ q) : pyInt q = ⌊q⌋ := by
  have hnum : 0 ≤ q.num := Rat.num_nonneg.mpr hq
  rw [pyInt, Int.tdiv_eq_ediv hnum (by positivity), Rat.floor_def]

theorem smoothstep_nonneg {t : ℚ} (h0 : 0 ≤ t) (h1 : t ≤ 1) :
    0 ≤ smoothstep t := by
  unfold smoothstep
  nlinarith [mul_nonneg (mul_nonneg h0 h0) (by linarith : (0:ℚ) ≤ 3 - 2*t)]

theorem smoothstep_le_one {t : ℚ} (h0 : 0 ≤ t) (h1 : t ≤ 1) :
    smoothstep t ≤ 1 := by
  unfold smoothstep
  nlinarith [mul_nonneg (mul_nonneg (by linarith : (0:ℚ) ≤ 1 - t)
    (by linarith : (0:ℚ) ≤ 1 - t)) (by linarith : (0:ℚ) ≤ 1 + 2*t)]

/-- On in-range progress the blend weights reduce to
`(1 − smoothstep p, smoothstep p)`. -/
theorem calculate_blend_weights_eq {p : ℚ} (h0 : 0 ≤ p) (h1 : p ≤ 1) :
    calculate_blend_weights p = (1 - smoothstep p, smoothstep p) := by
  have hs0 : 0 ≤ smoothstep p := smoothstep_nonneg h0 h1
  have hs1 : smoothstep p ≤ 1 := smoothstep_le_one h0 h1
  unfold calculate_blend_weights
  simp only
  rw [min_eq_left h1, max_eq_right h0]
  rw [min_eq_left (by linarith : 1 - smoothstep p ≤ 1),
      max_eq_right (by linarith : (0:ℚ) ≤ 1 - smoothstep p),
      min_eq_left hs1, max_eq_right hs0]
  have htot : 1 - smoothstep p + smoothstep p = 1 := by ring
  rw [htot]
  simp

/-- Concatenating the first `m` batches yields the contiguous index range up
to `min (m·bs) total`. -/
theorem flatMap_batches (total bs : ℕ) :
    ∀ m : ℕ, (List.range m).flatMap (batch_at total bs)
      = List.range' 0 (min (m * bs) total) := by
  intro m
  induction m with
  | zero => simp
  | succ n ih =>
    rw [List.range_succ, List.flatMap_append, ih]
    simp only [List.flatMap_cons, List.flatMap_nil, List.append_nil]
    unfold batch_at
    rcases le_or_lt (n * bs) total with hle | hlt
    · rw [min_eq_left hle]
      have h2 : n * bs ≤ min ((n + 1) * bs) total := by
        apply le_min _ hle
        exact Nat.mul_le_mul_right bs (Nat.le_succ n)
      have := List.range'_append 0 (n * bs) (min ((n + 1) * bs) total - n * bs) 1
      simp only [one_mul, zero_add] at this
      rw [this]
      congr 1
      omega
    · have h1 : min (n * bs) total = total := min_eq_right (le_of_lt hlt)
      have h2 : min ((n + 1) * bs) total = total := by
        apply min_eq_right
        calc total ≤ n * bs := le_of_lt hlt
        _ ≤ (n + 1) * bs := Nat.mul_le_mul_right bs (Nat.le_succ n)
      rw [h1, h2, Nat.sub_eq_zero_of_le (le_of_lt hlt)]
      simp

theorem total_le_num_batches_mul (total bs : ℕ) (hbs : 1 ≤ bs) :
    total ≤ num_batches total bs * bs := by
  unfold num_batches
  have h := Nat.div_add_mod (total + bs - 1) bs
  have hm : (total + bs - 1) % bs < bs := Nat.mod_lt _ (by omega)
  have hc : ((total + bs - 1) / bs) * bs = bs * ((total + bs - 1) / bs) :=
    Nat.mul_comm _ _
  omega

/-- The batch loop emits exactly the indices `0, 1, …, total_frames − 1`. -/
theorem output_indices_eq_range (total bs : ℕ) (hbs : 1 ≤ bs) :
    output_indices total bs = List.range total := by
  unfold output_indices
  rw [flatMap_batches total bs (num_batches total bs),
      min_eq_right (total_le_num_batches_mul total bs hbs),
      ← List.range_eq_range']

theorem output_frames_eq_map {α : Type} (render : ℕ → α) (total bs : ℕ)
    (hbs : 1 ≤ bs) :
    output_frames render total bs = (List.range total).map render := by
  unfold output_frames
  rw [← List.map_flatMap]
  rw [show (List.range (num_batches total bs)).flatMap (batch_at total bs)
        = output_indices total bs from rfl,
      output_indices_eq_range total bs hbs]

/-- For non-negative progress and non-empty clips the source truncation is a
floor, clamped above by `L − 1`. -/
theorem frame_idx_eq_floor (p : ℚ) (L : ℕ) (h0 : 0 ≤ p) (hL : 1 ≤ L) :
    frame_idx p L = min ⌊p * ((L : ℚ) - 1)⌋ ((L : ℤ) - 1) := by
  unfold frame_idx
  by_cases h : L = 1
  · subst h
    norm_num
  · have hL2 : 2 ≤ L := by omega
    have hnn : (0:ℚ) ≤ p * ((L : ℚ) - 1) := by
      apply mul_nonneg h0
      have : (2:ℚ) ≤ (L:ℚ) := by exact_mod_cast hL2
      linarith
    rw [if_neg h, pyInt_eq_floor hnn]

theorem frame_idx_bounds (p : ℚ) (L : ℕ) (h0 : 0 ≤ p) (hL : 1 ≤ L) :
    0 ≤ frame_idx p L ∧ frame_idx p L ≤ (L : ℤ) - 1 := by
  rw [frame_idx_eq_floor p L h0 hL]
  constructor
  · apply le_min
    · apply Int.floor_nonneg.mpr
      apply mul_nonneg h0
      by_cases h : L = 1
      · subst h; norm_num
      · have : (2:ℚ) ≤ (L:ℚ) := by exact_mod_cast (by omega : 2 ≤ L)
        linarith
    · omega
  · exact min_le_right _ _

/-- C2: for every progress in `[0,1]` the pair returned by
`_calculate_blend_weights` sums to 1 (exactly, hence within `1e-6`) and both
components lie in `[0,1]`. -/
theorem c2_blend_weights_invariant (p : ℚ) (h0 : 0 ≤ p) (h1 : p ≤ 1) :
    (calculate_blend_weights p).1 + (calculate_blend_weights p).2 = 1
  ∧ 0 ≤ (calculate_blend_weights p).1 ∧ (calculate_blend_weights p).1 ≤ 1
  ∧ 0 ≤ (calculate_blend_weights p).2 ∧ (calculate_blend_weights p).2 ≤ 1 := by
  have hs0 := smoothstep_nonneg h0 h1
  have hs1 := smoothstep_le_one h0 h1
  rw [calculate_blend_weights_eq h0 h1]
  dsimp only
  exact ⟨by ring, by linarith, by linarith, hs0, hs1⟩

theorem c2_blend_weights_invariant_witness :
    (0:ℚ) ≤ 1/3 ∧ (1/3:ℚ) ≤ 1 ∧
    ((calculate_blend_weights (1/3)).1 + (calculate_blend_weights (1/3)).2 = 1
  ∧ 0 ≤ (calculate_blend_weights (1/3)).1 ∧ (calculate_blend_weights (1/3)).1 ≤ 1
  ∧ 0 ≤ (calculate_blend_weights (1/3)).2 ∧ (calculate_blend_weights (1/3)).2 ≤ 1) :=
  ⟨by norm_num, by norm_num,
    c2_blend_weights_invariant (1/3) (by norm_num) (by norm_num)⟩

/-- C4 counterexample: at progress `0.7` with a clip of length `2` the code
selects index `0` (Python `int` truncates), while the spec's
`clamp(round(progress·(L−1)), 0, L−1)` gives `1`. -/
theorem c4_timeline_round_counterexample :
    frame_idx (7/10) 2 = 0 ∧ timeline_mapper_spec (7/10) 2 = 1
  ∧ frame_idx (7/10) 2 ≠ timeline_mapper_spec (7/10) 2 := by
  have h1 : frame_idx (7/10) 2 = 0 := by
    rw [frame_idx_eq_floor (7/10) 2 (by norm_num) (by norm_num)]
    norm_num
  have h2 : timeline_mapper_spec (7/10) 2 = 1 := by
    unfold timeline_mapper_spec
    rw [if_neg (by norm_num), round_eq]
    norm_num
  exact ⟨h1, h2, by rw [h1, h2]; decide⟩

/-- C4 amended: the Timeline Mapper returns
`min(⌊progress·(L−1)⌋, L−1)` (truncation, not rounding); the result is
monotonic non-decreasing in progress and always within `[0, L−1]`. -/
theorem c4_timeline_floor (p p' : ℚ) (L : ℕ) (h0 : 0 ≤ p) (hpp : p ≤ p')
    (h1 : p' ≤ 1) (hL : 1 ≤ L) :
    frame_idx p L = min ⌊p * ((L : ℚ) - 1)⌋ ((L : ℤ) - 1)
  ∧ 0 ≤ frame_idx p L ∧ frame_idx p L ≤ (L : ℤ) - 1
  ∧ frame_idx p L ≤ frame_idx p' L := by
  have h0' : 0 ≤ p' := le_trans h0 hpp
  refine ⟨frame_idx_eq_floor p L h0 hL, (frame_idx_bounds p L h0 hL).1,
    (frame_idx_bounds p L h0 hL).2, ?_⟩
  rw [frame_idx_eq_floor p L h0 hL, frame_idx_eq_floor p' L h0' hL]
  apply min_le_min _ le_rfl
  apply Int.floor_le_floor
  apply mul_le_mul_of_nonneg_right hpp
  have : (1:ℚ) ≤ (L:ℚ) := by exact_mod_cast hL
  linarith

theorem c4_timeline_floor_witness :
    (0:ℚ) ≤ 1/2 ∧ (1/2:ℚ) ≤ 3/4 ∧ (3/4:ℚ) ≤ 1 ∧ 1 ≤ 3 ∧
    (frame_idx (1/2) 3 = min ⌊(1/2:ℚ) * ((3:ℚ) - 1)⌋ ((3:ℤ) - 1)
  ∧ 0 ≤ frame_idx (1/2) 3 ∧ frame_idx (1/2) 3 ≤ (3:ℤ) - 1
  ∧ frame_idx (1/2) 3 ≤ frame_idx (3/4) 3) :=
  ⟨by norm_num, by norm_num, by norm_num, by norm_num,
    c4_timeline_floor (1/2) (3/4) 3 (by norm_num) (by norm_num) (by norm_num)
      (by norm_num)⟩

/-- C5: with `total_frames = 1` the progress guard avoids the division
(`progress = 0` by the `else` branch), the batch loop emits exactly the one
index `0`, and both clips contribute their frame `0`. -/
theorem c5_single_frame (bs L1 L2 : ℕ) (hbs : 1 ≤ bs) (h1 : 1 ≤ L1)
    (h2 : 1 ≤ L2) :
    output_indices 1 bs = [0]
  ∧ progress_at 0 1 = 0
  ∧ frame_idx (progress_at 0 1) L1 = 0
  ∧ frame_idx (progress_at 0 1) L2 = 0 := by
  have hp : progress_at 0 1 = 0 := rfl
  have hidx : ∀ L : ℕ, 1 ≤ L → frame_idx 0 L = 0 := by
    intro L hL
    rw [frame_idx_eq_floor 0 L le_rfl hL, zero_mul, Int.floor_zero,
        min_eq_left (by omega : (0:ℤ) ≤ (L : ℤ) - 1)]
  refine ⟨?_, hp, by rw [hp]; exact hidx L1 h1, by rw [hp]; exact hidx L2 h2⟩
  rw [output_indices_eq_range 1 bs hbs]
  rfl

theorem c5_single_frame_witness :
    1 ≤ 5 ∧ 1 ≤ 10 ∧ 1 ≤ 7 ∧
    (output_indices 1 5 = [0]
  ∧ progress_at 0 1 = 0
  ∧ frame_idx (progress_at 0 1) 10 = 0
  ∧ frame_idx (progress_at 0 1) 7 = 0) :=
  ⟨by decide, by decide, by decide,
    c5_single_frame 5 10 7 (by decide) (by decide) (by decide)⟩

/-- C9: for every `total_frames ≥ 0` and `batch_size ≥ 1` the batch loop
produces exactly `total_frames` frames in strict index order, and the result
is independent of the batch size (identical to `batch_size = 1`). -/
theorem c9_batch_invariance {α : Type} (render : ℕ → α) (total bs : ℕ)
    (hbs : 1 ≤ bs) :
    output_frames render total bs = (List.range total).map render
  ∧ output_frames render total bs = output_frames render total 1
  ∧ (output_frames render total bs).length = total := by
  have h := output_frames_eq_map render total bs hbs
  have h1 := output_frames_eq_map render total 1 le_rfl
  refine ⟨h, by rw [h, h1], by rw [h]; simp⟩

theorem apply_alpha_one (v : ℚ) : apply_alpha 1 v = v := by
  unfold apply_alpha
  rw [if_neg (by norm_num)]

theorem apply_alpha_zero (v : ℚ) : apply_alpha 0 v = 0 := by
  unfold apply_alpha
  rw [if_pos (by norm_num), mul_zero, pyInt_zero]
  norm_num

theorem blend_weights_at_zero : calculate_blend_weights 0 = (1, 0) := by
  rw [calculate_blend_weights_eq le_rfl zero_le_one]
  unfold smoothstep
  norm_num

theorem blend_weights_at_one : calculate_blend_weights 1 = (0, 1) := by
  rw [calculate_blend_weights_eq zero_le_one le_rfl]
  unfold smoothstep
  norm_num

theorem blend_weights_at_half : calculate_blend_weights (1/2) = (1/2, 1/2) := by
  rw [calculate_blend_weights_eq (by norm_num) (by norm_num)]
  unfold smoothstep
  norm_num

/-- C1 counterexample: at progress `1/2`, with both warped frames constant at
pixel value 200, the code composites to 100 — each warped frame is first
attenuated by its `alpha` inside `_apply_warp_effect` — while the spec's
`w1·frame1 + w2·frame2` (weights `(1/2, 1/2)`) gives 200. -/
theorem c1_attenuation_counterexample :
    composite_pixel (1/2) 200 200 = 100
  ∧ blend_compositor_spec (1/2) 200 200 = 200
  ∧ composite_pixel (1/2) 200 200 ≠ blend_compositor_spec (1/2) 200 200 := by
  have ha : apply_alpha (1/2 : ℚ) 200 = 100 := by
    unfold apply_alpha
    rw [if_pos (by norm_num), pyInt_eq_floor (by norm_num)]
    norm_num
  have h1 : composite_pixel (1/2) 200 200 = 100 := by
    unfold composite_pixel
    rw [blend_weights_at_half]
    dsimp only
    rw [show (1:ℚ) - 1/2 = 1/2 by norm_num, ha]
    unfold add_weighted
    rw [round_eq]
    norm_num
  have h2 : blend_compositor_spec (1/2) 200 200 = 200 := by
    unfold blend_compositor_spec
    rw [blend_weights_at_half]
    dsimp only
    rw [round_eq]
    norm_num
  exact ⟨h1, h2, by rw [h1, h2]; decide⟩

/-- C1 amended: the composited pixel equals the Blend Compositor weighted sum
applied to the warped frames after the additional per-frame attenuation of
`_apply_warp_effect` (frame1 scaled by `1 − progress` when that is `< 1`,
frame2 scaled by `progress` when that is `< 1`, both `uint8`-truncated); only
at progress `0` and `1` does the claimed unattenuated form hold. -/
theorem c1_compositing_with_attenuation (p v1 v2 : ℚ) :
    composite_pixel p v1 v2
      = blend_compositor_spec p (apply_alpha (1 - p) v1) (apply_alpha p v2)
  ∧ composite_pixel 0 v1 v2 = blend_compositor_spec 0 v1 v2
  ∧ composite_pixel 1 v1 v2 = blend_compositor_spec 1 v1 v2 := by
  refine ⟨?_, ?_, ?_⟩
  · unfold composite_pixel blend_compositor_spec add_weighted
    dsimp only
    have h : apply_alpha (1 - p) v1 * (calculate_blend_weights p).1
        + apply_alpha p v2 * (calculate_blend_weights p).2
        = (calculate_blend_weights p).1 * apply_alpha (1 - p) v1
        + (calculate_blend_weights p).2 * apply_alpha p v2 := by ring
    rw [h]
  · unfold composite_pixel blend_compositor_spec add_weighted
    rw [blend_weights_at_zero]
    dsimp only
    rw [show (1:ℚ) - 0 = 1 by norm_num, apply_alpha_one, apply_alpha_zero]
    have h : v1 * 1 + 0 * 0 = 1 * v1 + 0 * v2 := by ring
    rw [h]
  · unfold composite_pixel blend_compositor_spec add_weighted
    rw [blend_weights_at_one]
    dsimp only
    rw [show (1:ℚ) - 1 = 0 by norm_num, apply_alpha_one, apply_alpha_zero]
    have h : 0 * 0 + v2 * 1 = 0 * v1 + 1 * v2 := by ring
    rw [h]

/-- C6 counterexample: on a 100×100 frame with `max_scale = 200` and
`progress = 0` the clamped scale is 200, so the computed crop window is
empty (`crop_w = int(100 · 1/200) = 0`), and `cv2.resize` raises on the
empty crop — the transform does not return a canvas-sized frame for every
`max_scale ≥ 1`. -/
theorem c6_empty_crop_counterexample :
    scale_recovery_crop 100 100 0 200 = some ⟨50, 50, 0, 0⟩
  ∧ apply_scale_recovery_dims 100 100 0 200 = none
  ∧ apply_scale_recovery_dims 100 100 0 200 ≠ some (100, 100) := by
  have hscale : scale_recovery_scale 0 200 = 200 := by
    unfold scale_recovery_scale
    norm_num
  have hpy : pyInt ((100 : ℚ) * (1 / 200)) = 0 := by
    rw [pyInt_eq_floor (by norm_num)]
    norm_num
  have hcrop : scale_recovery_crop 100 100 0 200 = some ⟨50, 50, 0, 0⟩ := by
    unfold scale_recovery_crop
    dsimp only
    rw [hscale, if_neg (by norm_num : ¬ |(200:ℚ) - 1| < 1/100)]
    simp only [Nat.cast_ofNat]
    rw [hpy]
    rfl
  have hdims : apply_scale_recovery_dims 100 100 0 200 = none := by
    unfold apply_scale_recovery_dims
    rw [hcrop]
    rfl
  exact ⟨hcrop, hdims, by rw [hdims]; simp⟩

/-- C6 amended: for any `max_scale ≥ 1` and progress in `[0,1]` the clamps
on the zoom factor are vacuous, the centered crop window never exceeds the
source extent, and `_apply_scale_recovery` returns a frame of exactly the
canvas dimensions `h × w` whenever the early return fires or the crop window
is non-empty — in particular whenever `max_scale ≤ w` and `max_scale ≤ h`;
on an empty crop window `cv2.resize` raises instead. -/
theorem c6_scale_recovery_canvas (h w : ℕ) (progress max_scale : ℚ)
    (hms : 1 ≤ max_scale) (hp0 : 0 ≤ progress) (hp1 : progress ≤ 1) :
    scale_recovery_scale progress max_scale
        = max_scale - progress * (max_scale - 1)
  ∧ (∀ r ∈ scale_recovery_crop h w progress max_scale,
        r.x + r.cw ≤ w ∧ r.y + r.ch ≤ h)
  ∧ (∀ r ∈ scale_recovery_crop h w progress max_scale,
        1 ≤ r.cw → 1 ≤ r.ch →
        apply_scale_recovery_dims h w progress max_scale = some (h, w))
  ∧ (scale_recovery_crop h w progress max_scale = none →
        apply_scale_recovery_dims h w progress max_scale = some (h, w))
  ∧ (max_scale ≤ (w : ℚ) → max_scale ≤ (h : ℚ) →
        apply_scale_recovery_dims h w progress max_scale = some (h, w)) := by
  have hformula : scale_recovery_scale progress max_scale
      = max_scale - progress * (max_scale - 1) := by
    unfold scale_recovery_scale
    have hr1 : 1 ≤ max_scale - progress * (max_scale - 1) := by nlinarith
    have hr2 : max_scale - progress * (max_scale - 1) ≤ max_scale := by
      nlinarith
    rw [min_eq_left hr2, max_eq_right (by linarith)]
  have hs1 : (1:ℚ) ≤ scale_recovery_scale progress max_scale := by
    rw [hformula]; nlinarith
  have hsle : scale_recovery_scale progress max_scale ≤ max_scale := by
    rw [hformula]; nlinarith
  have hspos : (0:ℚ) < scale_recovery_scale progress max_scale :=
    lt_of_lt_of_le one_pos hs1
  have hbounds : ∀ r ∈ scale_recovery_crop h w progress max_scale,
      r.x + r.cw ≤ w ∧ r.y + r.ch ≤ h := by
    intro r hr
    unfold scale_recovery_crop at hr
    dsimp only at hr
    split at hr
    · simp at hr
    · simp only [Option.mem_def, Option.some.injEq] at hr
      subst hr
      dsimp only
      constructor <;> omega
  have hsome : ∀ r ∈ scale_recovery_crop h w progress max_scale,
      1 ≤ r.cw → 1 ≤ r.ch →
      apply_scale_recovery_dims h w progress max_scale = some (h, w) := by
    intro r hr hcw hch
    have hr' : scale_recovery_crop h w progress max_scale = some r :=
      Option.mem_def.mp hr
    unfold apply_scale_recovery_dims
    rw [hr']
    dsimp only
    rw [if_neg (by rintro (hz | hz) <;> omega)]
  have hnone : scale_recovery_crop h w progress max_scale = none →
      apply_scale_recovery_dims h w progress max_scale = some (h, w) := by
    intro hc
    unfold apply_scale_recovery_dims
    rw [hc]
  have hnonempty : max_scale ≤ (w : ℚ) → max_scale ≤ (h : ℚ) →
      ∀ r ∈ scale_recovery_crop h w progress max_scale,
        1 ≤ r.cw ∧ 1 ≤ r.ch := by
    intro hW hH r hr
    have hdim : ∀ d : ℕ, max_scale ≤ (d : ℚ) →
        1 ≤ min (pyInt ((d : ℚ) *
          (1 / scale_recovery_scale progress max_scale))).toNat d := by
      intro d hd
      have hq : (1:ℚ) ≤ (d : ℚ) * (1 / scale_recovery_scale progress max_scale) := by
        rw [mul_one_div, le_div_iff₀ hspos]
        linarith
      have hfl : 1 ≤ pyInt ((d : ℚ) * (1 / scale_recovery_scale progress max_scale)) := by
        rw [pyInt_eq_floor (le_trans zero_le_one hq)]
        exact Int.le_floor.mpr (by exact_mod_cast hq)
      have hd1 : 1 ≤ d := by exact_mod_cast le_trans hms hd
      omega
    unfold scale_recovery_crop at hr
    dsimp only at hr
    split at hr
    · simp at hr
    · simp only [Option.mem_def, Option.some.injEq] at hr
      subst hr
      exact ⟨hdim w hW, hdim h hH⟩
  refine ⟨hformula, hbounds, hsome, hnone, fun hW hH => ?_⟩
  rcases hc : scale_recovery_crop h w progress max_scale with _ | r
  · exact hnone hc
  · have hmem : r ∈ scale_recovery_crop h w progress max_scale :=
      Option.mem_def.mpr hc
    have hne := hnonempty hW hH r hmem
    exact hsome r hmem hne.1 hne.2

theorem c6_scale_recovery_canvas_witness :
    (1:ℚ) ≤ 13/10 ∧ (0:ℚ) ≤ 1/2 ∧ (1/2:ℚ) ≤ 1 ∧
    (scale_recovery_scale (1/2) (13/10) = 13/10 - 1/2 * (13/10 - 1)
  ∧ (∀ r ∈ scale_recovery_crop 480 640 (1/2) (13/10),
        r.x + r.cw ≤ 640 ∧ r.y + r.ch ≤ 480)
  ∧ (∀ r ∈ scale_recovery_crop 480 640 (1/2) (13/10),
        1 ≤ r.cw → 1 ≤ r.ch →
        apply_scale_recovery_dims 480 640 (1/2) (13/10) = some (480, 640))
  ∧ (scale_recovery_crop 480 640 (1/2) (13/10) = none →
        apply_scale_recovery_dims 480 640 (1/2) (13/10) = some (480, 640))
  ∧ ((13/10 : ℚ) ≤ ((640 : ℕ) : ℚ) → (13/10 : ℚ) ≤ ((480 : ℕ) : ℚ) →
        apply_scale_recovery_dims 480 640 (1/2) (13/10) = some (480, 640))) :=
  ⟨by norm_num, by norm_num, by norm_num,
    c6_scale_recovery_canvas 480 640 (1/2) (13/10) (by norm_num) (by norm_num)
      (by norm_num)⟩

theorem cubic_w_zero : cubic_w 0 = 1 := by norm_num [cubic_w]

theorem cubic_w_one : cubic_w 1 = 0 := by norm_num [cubic_w]

theorem cubic_w_neg_one : cubic_w (-1) = 0 := by norm_num [cubic_w]

theorem cubic_w_neg_two : cubic_w (-2) = 0 := by norm_num [cubic_w]

/-- Reflect-border indexing is the identity on in-range indices. -/
theorem reflect_idx_of_lt (i n : ℕ) (h : i < n) : reflect_idx (i : ℤ) n = i := by
  unfold reflect_idx
  rw [if_neg (by omega : ¬ n = 0)]
  have hmod : (i : ℤ) % (2 * (n : ℤ)) = i := by
    apply Int.emod_eq_of_lt (by positivity)
    have : (i : ℤ) < n := by exact_mod_cast h
    omega
  dsimp only
  rw [hmod, Int.toNat_natCast, if_pos h]

/-- At an exact integer coordinate the bicubic kernel weights collapse to a
single unit tap, so sampling reproduces the stored pixel exactly. -/
theorem bicubic_at_integer (img : Img) (x y : ℕ) (hx : x < img.w)
    (hy : y < img.h) :
    bicubic_sample img (x : ℚ) (y : ℚ) = img.px y x := by
  unfold bicubic_sample
  dsimp only
  rw [Int.floor_natCast, Int.floor_natCast]
  simp only [Finset.sum_range_succ, Finset.sum_range_zero]
  norm_num [cubic_w_zero, cubic_w_one, cubic_w_neg_one, cubic_w_neg_two]
  rw [reflect_idx_of_lt y img.h hy, reflect_idx_of_lt x img.w hx]

/-- C7: applying the Warp Resampler with an all-zero displacement field
returns every in-range pixel unchanged (exactly, in the rational model —
hence pixel-identical within interpolation rounding). -/
theorem c7_zero_field_identity (img : Img) (y x : ℕ) (hy : y < img.h)
    (hx : x < img.w) :
    (apply_warp_remap img (fun _ _ => 0) (fun _ _ => 0)).px y x
      = img.px y x := by
  unfold apply_warp_remap
  dsimp only
  have hclx : clipQ ((x : ℚ) + 0) 0 ((img.w : ℚ) - 1) = (x : ℚ) := by
    unfold clipQ
    rw [add_zero, max_eq_left (by positivity)]
    apply min_eq_left
    have : (x : ℚ) + 1 ≤ (img.w : ℚ) := by exact_mod_cast hx
    linarith
  have hcly : clipQ ((y : ℚ) + 0) 0 ((img.h : ℚ) - 1) = (y : ℚ) := by
    unfold clipQ
    rw [add_zero, max_eq_left (by positivity)]
    apply min_eq_left
    have : (y : ℚ) + 1 ≤ (img.h : ℚ) := by exact_mod_cast hy
    linarith
  rw [hclx, hcly]
  exact bicubic_at_integer img x y hx hy

theorem c7_zero_field_identity_witness :
    1 < (Img.mk 2 2 (fun y x => 10 * y + x)).h
  ∧ 1 < (Img.mk 2 2 (fun y x => 10 * y + x)).w
  ∧ (apply_warp_remap (Img.mk 2 2 (fun y x => 10 * y + x))
      (fun _ _ => 0) (fun _ _ => 0)).px 1 1
      = (Img.mk 2 2 (fun y x => 10 * y + x)).px 1 1 :=
  ⟨by decide, by decide,
    c7_zero_field_identity (Img.mk 2 2 (fun y x => 10 * y + x)) 1 1
      (by decide) (by decide)⟩

theorem hex_digit_val_le (c : Char) (d : ℕ) (h : hex_digit_val c = some d) :
    d ≤ 15 := by
  unfold hex_digit_val at h
  split_ifs at h <;> simp_all <;> omega

theorem py_int_hex2_range (c1 c2 : Char) (v : ℤ)
    (h : py_int_hex2 c1 c2 = some v) : -15 ≤ v ∧ v ≤ 255 := by
  unfold py_int_hex2 at h
  rcases h1 : hex_digit_val c1 with _ | v1 <;>
    rcases h2 : hex_digit_val c2 with _ | v2 <;>
    rw [h1, h2] at h
  · simp at h
  · have hb := hex_digit_val_le c2 v2 h2
    split_ifs at h <;> simp_all <;> omega
  · have ha := hex_digit_val_le c1 v1 h1
    split_ifs at h <;> simp_all <;> omega
  · have ha := hex_digit_val_le c1 v1 h1
    have hb := hex_digit_val_le c2 v2 h2
    simp only [Option.some.injEq] at h
    omega

theorem parse_bg_core_range (l : List Char) :
    color_in_range (parse_bg_core l) := by
  have hz : color_in_range (0, 0, 0) := by
    unfold color_in_range; norm_num
  rcases l with _ | ⟨c1, _ | ⟨c2, _ | ⟨c3, _ | ⟨c4, _ | ⟨c5, _ | ⟨c6, _ | ⟨c7, rest⟩⟩⟩⟩⟩⟩⟩
  · exact hz
  · exact hz
  · exact hz
  · unfold parse_bg_core
    rcases hr : py_int_hex2 c1 c1 with _ | r <;>
      rcases hg : py_int_hex2 c2 c2 with _ | g <;>
      rcases hb : py_int_hex2 c3 c3 with _ | b <;>
      simp only [hr, hg, hb] <;> try exact hz
    have h1 := py_int_hex2_range c1 c1 r hr
    have h2 := py_int_hex2_range c2 c2 g hg
    have h3 := py_int_hex2_range c3 c3 b hb
    unfold color_in_range
    exact ⟨h3.1, h3.2, h2.1, h2.2, h1.1, h1.2⟩
  · exact hz
  · exact hz
  · unfold parse_bg_core
    rcases hr : py_int_hex2 c1 c2 with _ | r <;>
      rcases hg : py_int_hex2 c3 c4 with _ | g <;>
      rcases hb : py_int_hex2 c5 c6 with _ | b <;>
      simp only [hr, hg, hb] <;> try exact hz
    have h1 := py_int_hex2_range c1 c2 r hr
    have h2 := py_int_hex2_range c3 c4 g hg
    have h3 := py_int_hex2_range c5 c6 b hb
    unfold color_in_range
    exact ⟨h3.1, h3.2, h2.1, h2.2, h1.1, h1.2⟩
  · exact hz

/-- C10 counterexample: on input `"-11111"` the parser returns
`(17, 17, -1)` — Python's `int("-1", 16)` accepts the sign — so the red
component is negative, outside `[0, 255]`, refuting the claimed range. -/
theorem c10_negative_component_counterexample :
    parse_background_color "-11111" = (17, 17, -1)
  ∧ ¬ (0 ≤ (parse_background_color "-11111").2.2 ∧
       (parse_background_color "-11111").2.2 ≤ 255) := by
  decide

/-- C10 amended: the parser always returns a 3-tuple `(b, g, r)` of integers
and never raises; a leading `#` is stripped, 6- and 3-digit hex forms are
decoded and any other length or non-hex content yields black — but because
Python's `int(·, 16)` also accepts a sign or whitespace inside a 2-character
slice, components are only guaranteed to lie in `[-15, 255]`, not in
`[0, 255]`. -/
theorem c10_parse_color_range (s : String) :
    color_in_range (parse_background_color s) :=
  parse_bg_core_range (strip_hash s.data)

/-- C3: the Displacement Field Generator does not reject an unrecognized
style.  Evaluated at the misspelled style string `"sworl"` (any string
outside the five recognized ones takes the same `else` branch), the dispatch
of `_apply_warp_effect` silently returns the all-zero displacement field for
every pixel instead of raising a configuration error. -/
theorem c3_unknown_style_silent_zero_field
    (x y w h intensity speed progress : ℝ) (is_first : Bool) :
    warp_displacement "sworl" x y w h intensity speed progress is_first
      = (0, 0) := by
  unfold warp_displacement
  dsimp only
  rw [if_neg (by decide : ¬ ("sworl" = "swirl")),
      if_neg (by decide : ¬ ("sworl" = "squeeze_h")),
      if_neg (by decide : ¬ ("sworl" = "squeeze_v")),
      if_neg (by decide : ¬ ("sworl" = "liquid")),
      if_neg (by decide : ¬ ("sworl" = "wave"))]

/-- C8 counterexample: on an 8×6 canvas (corner radius 5) with
`intensity = 1/2`, `progress = 1`, role `first`, the swirl angle at the
canvas center `(4, 3)` is `0`, strictly smaller in magnitude than the angle
`132π/625` at the interior pixel `(1, 3)` — so the rotation magnitude is not
largest at the center. -/
theorem c8_swirl_center_angle_counterexample :
    |swirl_twist_angle 4 3 8 6 (1/2) 1 true|
      < |swirl_twist_angle 1 3 8 6 (1/2) 1 true| := by
  have hs0 : Real.sqrt (((4:ℝ) - 8/2)^2 + ((3:ℝ) - 6/2)^2) = 0 := by
    rw [show ((4:ℝ) - 8/2)^2 + ((3:ℝ) - 6/2)^2 = 0 by norm_num]
    exact Real.sqrt_zero
  have hs9 : Real.sqrt (((1:ℝ) - 8/2)^2 + ((3:ℝ) - 6/2)^2) = 3 := by
    rw [show ((1:ℝ) - 8/2)^2 + ((3:ℝ) - 6/2)^2 = 3^2 by norm_num]
    exact Real.sqrt_sq (by norm_num)
  have hs25 : Real.sqrt (((8:ℝ)/2)^2 + ((6:ℝ)/2)^2) = 5 := by
    rw [show ((8:ℝ)/2)^2 + ((6:ℝ)/2)^2 = 5^2 by norm_num]
    exact Real.sqrt_sq (by norm_num)
  have h1 : swirl_twist_angle 4 3 8 6 (1/2) 1 true = 0 := by
    unfold swirl_twist_angle
    dsimp only
    rw [hs0]
    norm_num
  have h2 : swirl_twist_angle 1 3 8 6 (1/2) 1 true = 132/625 * Real.pi := by
    unfold swirl_twist_angle
    dsimp only
    rw [hs9, hs25, if_pos (by norm_num : (0:ℝ) < 3)]
    norm_num
    ring
  rw [h1, h2, abs_zero]
  have hpos : (0:ℝ) < 132/625 * Real.pi := by positivity
  rw [abs_of_pos hpos]
  exact hpos

/-- C8 amended: the swirl angle vanishes at the canvas center (it is *not*
largest there; it peaks at an intermediate radius) and vanishes at the
canvas corner radius, with the smooth cubic falloff of normalized radius;
the rotation sign is `+1` for role `first` and `-1` for role `second` with
the mirrored ramp, and the magnitude scales linearly with the `intensity`
multiplier. -/
theorem c8_swirl_angle_profile (w h intensity progress x y : ℝ)
    (hw : 0 < w) :
    swirl_twist_angle (w/2) (h/2) w h intensity progress true = 0
  ∧ swirl_twist_angle 0 0 w h intensity progress true = 0
  ∧ swirl_twist_angle x y w h intensity progress false
      = -(swirl_twist_angle x y w h intensity (1 - progress) true)
  ∧ swirl_twist_angle x y w h intensity progress true
      = intensity * swirl_twist_angle x y w h 1 progress true := by
  refine ⟨?_, ?_, ?_, ?_⟩
  · unfold swirl_twist_angle
    dsimp only
    have hd : Real.sqrt ((w/2 - w/2)^2 + (h/2 - h/2)^2) = 0 := by
      rw [show (w/2 - w/2)^2 + (h/2 - h/2)^2 = 0 by ring]
      exact Real.sqrt_zero
    rw [hd]
    norm_num
  · unfold swirl_twist_angle
    dsimp only
    have hsum : (0 - w/2)^2 + (0 - h/2)^2 = (w/2)^2 + (h/2)^2 := by ring
    have hpos : 0 < (w/2)^2 + (h/2)^2 := by
      have h1 : 0 < (w/2)^2 := pow_pos (by linarith) 2
      have h2 : 0 ≤ (h/2)^2 := sq_nonneg _
      linarith
    have hrpos : 0 < Real.sqrt ((w/2)^2 + (h/2)^2) := Real.sqrt_pos.mpr hpos
    rw [hsum, if_pos hrpos, div_self hrpos.ne']
    norm_num
  · unfold swirl_twist_angle
    norm_num
  · unfold swirl_twist_angle
    norm_num
    ring_nf

theorem c8_swirl_angle_profile_witness :
    (0:ℝ) < 8 ∧
    (swirl_twist_angle (8/2) (6/2) 8 6 (1/2) (1/3) true = 0
  ∧ swirl_twist_angle 0 0 8 6 (1/2) (1/3) true = 0
  ∧ swirl_twist_angle 2 5 8 6 (1/2) (1/3) false
      = -(swirl_twist_angle 2 5 8 6 (1/2) (1 - 1/3) true)
  ∧ swirl_twist_angle 2 5 8 6 (1/2) (1/3) true
      = 1/2 * swirl_twist_angle 2 5 8 6 1 (1/3) true) :=
  ⟨by norm_num, c8_swirl_angle_profile 8 6 (1/2) (1/3) 2 5 (by norm_num)⟩

theorem c9_batch_invariance_witness :
    1 ≤ 2 ∧
    (output_frames (fun i => i) 5 2 = (List.range 5).map (fun i => i)
  ∧ output_frames (fun i => i) 5 2 = output_frames (fun i => i) 5 1
  ∧ (output_frames (fun i => i) 5 2).length = 5) :=
  ⟨by decide, c9_batch_invariance (fun i => i) 5 2 (by decide)⟩

end VideoWarp
